import Mathlib

/-!
Shallow embedding of the arbitrage-agent core (models/price.py,
models/opportunity.py, config.py, services/arbitrage.py,
services/tinyfish.py, api/routes.py).  Monetary amounts and percentages
are modelled as rationals; timestamps as naturals.
-/

/-- Rounds a rational to the nearest integer, halves to even
(the semantics of Python's built-in `round`). -/
def roundHalfEven (x : ℚ) : ℤ :=
  let f := ⌊x⌋
  let r := x - (f : ℚ)
  if r < 1/2 then f
  else if 1/2 < r then f + 1
  else if f % 2 = 0 then f else f + 1

/-- `round(x, d)` from Python: round to `d` decimal places. -/
def roundDec (d : ℕ) (x : ℚ) : ℚ :=
  (roundHalfEven (x * 10 ^ d) : ℚ) / 10 ^ d

/-- Tests whether `needle` occurs at the head of `hay` (character lists). -/
def listStartsWith : List Char → List Char → Bool
  | [], _ => true
  | _ :: _, [] => false
  | c :: cs, d :: ds => c == d && listStartsWith cs ds

/-- Tests whether `needle` occurs anywhere inside `hay` (character lists);
models Python's `needle in hay` substring test. -/
def listHasSub (needle : List Char) : List Char → Bool
  | [] => needle.isEmpty
  | d :: ds => listStartsWith needle (d :: ds) || listHasSub needle ds

/-- Python's `needle in hay` on strings. -/
def strContains (hay needle : String) : Bool :=
  listHasSub needle.data hay.data

/-- Python's `str.lower()` (character-wise ASCII lowercasing). -/
def strLower (s : String) : String :=
  String.mk (s.data.map Char.toLower)

/-- `Marketplace` enum from models/price.py. -/
inductive Marketplace where
  | amazon
  | bestbuy
deriving DecidableEq, Repr

/-- `PricePoint` from models/price.py (the generated uuid field is omitted;
it plays no role in the core logic). -/
structure PricePoint where
  product_id : String
  marketplace : Marketplace
  price : ℚ
  shipping : ℚ
  stock : String
  seller : Option String
  condition : String
  timestamp : ℕ
  url : String
deriving DecidableEq, Repr

/-- `PricePoint.total_cost` property: price plus shipping. -/
def PricePoint.total_cost (p : PricePoint) : ℚ :=
  p.price + p.shipping

/-- `Opportunity` from models/opportunity.py (uuid field omitted). -/
structure Opportunity where
  product_id : String
  product_name : String
  buy_marketplace : Marketplace
  buy_price : ℚ
  buy_shipping : ℚ
  buy_url : String
  sell_marketplace : Marketplace
  sell_price : ℚ
  sell_url : String
  gross_profit : ℚ
  estimated_fees : ℚ
  net_profit : ℚ
  margin_pct : ℚ
  risk_score : ℚ
  risk_factors : List String
  stock_status : String
  last_updated : ℕ
deriving DecidableEq, Repr

/-- Arbitrage-relevant settings from config.py. -/
structure Settings where
  min_margin_threshold : ℚ
  amazon_seller_fee_pct : ℚ
deriving DecidableEq, Repr

/-- The defaults in config.py: 5% minimum margin, 15% Amazon seller fee. -/
def defaultSettings : Settings :=
  { min_margin_threshold := 5, amazon_seller_fee_pct := 15 }

/-- `ArbitrageService._calculate_risk` from services/arbitrage.py. -/
def calculate_risk (buy_price _sell_price : PricePoint) (margin_pct : ℚ) :
    ℚ × List String :=
  let buy_stock_lower := strLower buy_price.stock
  let s1 : ℚ := 5
  let f1 : List String := []
  let stockOut :=
    strContains buy_stock_lower "out of stock" ||
      strContains buy_stock_lower "unavailable"
  let stockLow :=
    strContains buy_stock_lower "low" || strContains buy_stock_lower "only"
  let s2 := if stockOut then s1 + 3 else if stockLow then s1 + 3/2 else s1
  let f2 := if stockOut then f1 ++ ["Buy source out of stock"]
    else if stockLow then f1 ++ ["Low stock at buy source"] else f1
  let thirdParty :=
    match buy_price.seller with
    | none => false
    | some sl => !(strLower sl == "amazon.com")
  let s3 := if thirdParty then s2 + 1 else s2
  let f3 := if thirdParty then f2 ++ ["Third-party seller"] else f2
  let s4 := if 50 < margin_pct then s3 + 2 else s3
  let f4 := if 50 < margin_pct then
    f3 ++ ["Unusually high margin - verify prices"] else f3
  let s5 := if margin_pct < 10 then s4 + 1 else s4
  let f5 := if margin_pct < 10 then
    f4 ++ ["Thin margin - price sensitive"] else f4
  let s6 := if 0 < buy_price.shipping then s5 + 1/2 else s5
  let f6 := if 0 < buy_price.shipping then
    f5 ++ ["Shipping costs reduce margin"] else f5
  (roundDec 1 (min 10 (max 0 s6)), f6)

/-- `ArbitrageService.calculate_opportunity` from services/arbitrage.py.
The two observations are passed by role (amazon side, bestbuy side), as in
the source; the caller guarantees both are present, mirroring the
`if amazon_price and bestbuy_price` guard at the call site. -/
def calculate_opportunity (s : Settings) (product_id product_name : String)
    (amazon_price bestbuy_price : PricePoint) (now : ℕ) : Option Opportunity :=
  let amazon_total := amazon_price.total_cost
  let bestbuy_total := bestbuy_price.total_cost
  let buy_price :=
    if amazon_total < bestbuy_total then amazon_price else bestbuy_price
  let sell_price :=
    if amazon_total < bestbuy_total then bestbuy_price else amazon_price
  let estimated_fees : ℚ :=
    if amazon_total < bestbuy_total then 0
    else sell_price.price * (s.amazon_seller_fee_pct / 100)
  let gross_profit := sell_price.price - buy_price.total_cost
  let net_profit := gross_profit - estimated_fees
  if buy_price.total_cost ≤ 0 then none
  else
    let margin_pct := net_profit / buy_price.total_cost * 100
    if margin_pct < s.min_margin_threshold then none
    else
      let risk := calculate_risk buy_price sell_price margin_pct
      some
        { product_id := product_id
          product_name := product_name
          buy_marketplace := buy_price.marketplace
          buy_price := buy_price.price
          buy_shipping := buy_price.shipping
          buy_url := buy_price.url
          sell_marketplace := sell_price.marketplace
          sell_price := sell_price.price
          sell_url := sell_price.url
          gross_profit := roundDec 2 gross_profit
          estimated_fees := roundDec 2 estimated_fees
          net_profit := roundDec 2 net_profit
          margin_pct := roundDec 2 margin_pct
          risk_score := risk.1
          risk_factors := risk.2
          stock_status := buy_price.stock
          last_updated := now }

/-- One insertion step of a stable descending sort on `margin_pct`:
the element is placed before the first strictly smaller margin, after all
earlier elements with greater-or-equal margin. -/
def insDesc (x : Opportunity) : List Opportunity → List Opportunity
  | [] => [x]
  | y :: ys =>
    if y.margin_pct ≤ x.margin_pct then x :: y :: ys else y :: insDesc x ys

/-- `filtered.sort(key=margin_pct, reverse=True)` from services/arbitrage.py:
Python's list sort is a stable sort, modelled here as stable insertion
sort (elements of equal margin keep their original relative order). -/
def sortByMarginDesc (l : List Opportunity) : List Opportunity :=
  l.foldr insDesc []

/-- `ArbitrageService.filter_opportunities` from services/arbitrage.py. -/
def filter_opportunities (s : Settings) (opportunities : List Opportunity)
    (min_margin max_risk : Option ℚ) : List Opportunity :=
  let mm := min_margin.getD s.min_margin_threshold
  let filtered :=
    opportunities.filter (fun o => decide (mm ≤ o.margin_pct))
  let filtered2 :=
    match max_risk with
    | none => filtered
    | some r => filtered.filter (fun o => decide (o.risk_score ≤ r))
  sortByMarginDesc filtered2

/-- `Product` from models/product.py, restricted to the fields the scan
pipeline reads (id, name, last-scanned timestamp). -/
structure Product where
  id : String
  name : String
  last_scanned : Option ℕ
deriving DecidableEq, Repr

/-- The module-level in-memory storage of api/routes.py: `products_db`,
`prices_db` (history list per product id) and the `opportunities_db`
list, in registry (last-update) order. -/
structure AppState where
  products : String → Option Product
  prices : String → List PricePoint
  opps : List Opportunity

/-- The empty storage the module starts with. -/
def initState : AppState :=
  { products := fun _ => none, prices := fun _ => [], opps := [] }

/-- `add_product` from api/routes.py, restricted to its storage effect:
store the product and an empty history list. -/
def add_product (st : AppState) (p : Product) : AppState :=
  { products := fun q => if q = p.id then some p else st.products q
    prices := fun q => if q = p.id then [] else st.prices q
    opps := st.opps }

/-- `delete_product` from api/routes.py: on an unknown id it raises 404 and
changes nothing; otherwise it deletes the product, its history and every
opportunity carrying its product id. -/
def delete_product (st : AppState) (product_id : String) : AppState :=
  match st.products product_id with
  | none => st
  | some _ =>
    { products := fun q => if q = product_id then none else st.products q
      prices := fun q => if q = product_id then [] else st.prices q
      opps := st.opps.filter (fun o => decide (o.product_id ≠ product_id)) }

/-- The observations a scan appends to the history, in source order:
the amazon fetch result first, then the bestbuy one. -/
def obsList (amazon_price bestbuy_price : Option PricePoint) :
    List PricePoint :=
  amazon_price.toList ++ bestbuy_price.toList

/-- `scan_product` from api/routes.py.  The two fetch results are inputs
(the scraping collaborator is external); `now` is the scan timestamp.
Unknown products are skipped with no side effect.  Note the source removes
the prior opportunity only inside `if opportunity:`. -/
def scan_product (s : Settings) (st : AppState) (product_id : String)
    (amazon_price bestbuy_price : Option PricePoint) (now : ℕ) : AppState :=
  match st.products product_id with
  | none => st
  | some product =>
    let hist := st.prices product_id ++ obsList amazon_price bestbuy_price
    let opps' :=
      match amazon_price, bestbuy_price with
      | some ap, some bp =>
        match calculate_opportunity s product_id product.name ap bp now with
        | some opp =>
          (st.opps.filter (fun o => decide (o.product_id ≠ product_id))) ++
            [opp]
        | none => st.opps
      | _, _ => st.opps
    let hist' := if 100 < hist.length then hist.drop (hist.length - 100)
      else hist
    { products := fun q =>
        if q = product_id then some { product with last_scanned := some now }
        else st.products q
      prices := fun q => if q = product_id then hist' else st.prices q
      opps := opps' }

/-- The storage states reachable from the empty module state through the
mutating routes: add product, scan (with arbitrary fetch outcomes), delete. -/
inductive Reachable (s : Settings) : AppState → Prop where
  | init : Reachable s initState
  | add (st : AppState) (p : Product) :
      Reachable s st → Reachable s (add_product st p)
  | scan (st : AppState) (product_id : String)
      (amazon_price bestbuy_price : Option PricePoint) (now : ℕ) :
      Reachable s st →
      Reachable s (scan_product s st product_id amazon_price bestbuy_price now)
  | del (st : AppState) (product_id : String) :
      Reachable s st → Reachable s (delete_product st product_id)

/-- The possible outcomes of the TinyFish fetch in
`TinyFishService.scrape_price`: a parsed result dictionary, an HTTP status
error, some other exception, or a stream with no usable COMPLETE event. -/
inductive FetchOutcome where
  | ok (price shipping : ℚ) (stock : String) (seller : Option String)
  | httpStatusError
  | otherError
  | noCompleteEvent
deriving DecidableEq, Repr

/-- `TinyFishService._detect_marketplace`: the `none` case models the
ValueError raised for an unrecognised URL. -/
def detect_marketplace (url : String) : Option Marketplace :=
  if strContains (strLower url) "amazon.com" then some Marketplace.amazon
  else if strContains (strLower url) "bestbuy.com" then some Marketplace.bestbuy
  else none

/-- `TinyFishService._get_mock_price`: the synthetic fallback observation.
`draw` is the value produced by `random.uniform(20.0, 100.0)`. -/
def get_mock_price (url product_id : String) (marketplace : Marketplace)
    (draw : ℚ) (now : ℕ) : Option PricePoint :=
  some
    { product_id := product_id
      marketplace := marketplace
      price := roundDec 2 draw
      shipping := 0
      stock := "In Stock"
      seller := some "Mock Seller"
      condition := "new"
      timestamp := now
      url := url }

/-- `TinyFishService.scrape_price`, at the level of fetch outcomes.  The
marketplace detection happens before the try block, so its ValueError
escapes (modelled by `Except.error`); every failure inside the try block
is caught and answered with the mock observation. -/
def scrape_price (url product_id : String) (outcome : FetchOutcome)
    (draw : ℚ) (now : ℕ) : Except Unit (Option PricePoint) :=
  match detect_marketplace url with
  | none => Except.error ()
  | some marketplace =>
    match outcome with
    | FetchOutcome.ok price shipping stock seller =>
      Except.ok (some
        { product_id := product_id
          marketplace := marketplace
          price := price
          shipping := shipping
          stock := stock
          seller := seller
          condition := "new"
          timestamp := now
          url := url })
    | FetchOutcome.httpStatusError =>
      Except.ok (get_mock_price url product_id marketplace draw now)
    | FetchOutcome.otherError =>
      Except.ok (get_mock_price url product_id marketplace draw now)
    | FetchOutcome.noCompleteEvent =>
      Except.ok (get_mock_price url product_id marketplace draw now)

/-! ### Concrete fixtures used by witnesses and counterexamples -/

/-- Scenario observation: Amazon side, price 70, free shipping. -/
def amPt : PricePoint :=
  { product_id := "p1", marketplace := Marketplace.amazon, price := 70,
    shipping := 0, stock := "In Stock", seller := none, condition := "new",
    timestamp := 7, url := "https://www.amazon.com/x" }

/-- Scenario observation: Best Buy side, price 48, shipping 2 (total 50). -/
def bbPt : PricePoint :=
  { product_id := "p1", marketplace := Marketplace.bestbuy, price := 48,
    shipping := 2, stock := "In Stock", seller := none, condition := "new",
    timestamp := 7, url := "https://www.bestbuy.com/x" }

/-- Tied observation on the Amazon side: total cost 100. -/
def amTie : PricePoint := { amPt with price := 100 }

/-- Tied observation on the Best Buy side: total cost 100. -/
def bbTie : PricePoint := { bbPt with price := 100, shipping := 0 }

/-- Settings with a minimum-margin threshold low enough that even a
negative margin is reported (used to expose the tie direction). -/
def lowBar : Settings :=
  { min_margin_threshold := -100, amazon_seller_fee_pct := 15 }

/-- The opportunity the engine computes for the scenario pair, as a
function of the scan timestamp. -/
def oppScenarioAt (now : ℕ) : Opportunity :=
  { product_id := "p1", product_name := "Widget",
    buy_marketplace := Marketplace.bestbuy, buy_price := 48,
    buy_shipping := 2, buy_url := "https://www.bestbuy.com/x",
    sell_marketplace := Marketplace.amazon, sell_price := 70,
    sell_url := "https://www.amazon.com/x", gross_profit := 20,
    estimated_fees := 21/2, net_profit := 19/2, margin_pct := 19,
    risk_score := 11/2, risk_factors := ["Shipping costs reduce margin"],
    stock_status := "In Stock", last_updated := now }

/-- The opportunity the engine computes for the tied pair under `lowBar`. -/
def oppTie : Opportunity :=
  { product_id := "p1", product_name := "Widget",
    buy_marketplace := Marketplace.bestbuy, buy_price := 100,
    buy_shipping := 0, buy_url := "https://www.bestbuy.com/x",
    sell_marketplace := Marketplace.amazon, sell_price := 100,
    sell_url := "https://www.amazon.com/x", gross_profit := 0,
    estimated_fees := 15, net_profit := -15, margin_pct := -15,
    risk_score := 6, risk_factors := ["Thin margin - price sensitive"],
    stock_status := "In Stock", last_updated := 1 }

/-- The tracked product used by the scan fixtures. -/
def prod1 : Product := { id := "p1", name := "Widget", last_scanned := none }

/-- Store state after adding `prod1`. -/
def stAdded : AppState := add_product initState prod1

/-- Store state after a first scan of `prod1` in which both fetches
succeed with the scenario observations: the registry holds the
scenario opportunity computed in this round (timestamp 0). -/
def stScan : AppState :=
  scan_product defaultSettings stAdded "p1" (some amPt) (some bbPt) 0

/-- The mock observation substituted for a failed Amazon fetch with
random draw 50. -/
def mock50 : PricePoint :=
  { product_id := "p1", marketplace := Marketplace.amazon, price := 50,
    shipping := 0, stock := "In Stock", seller := some "Mock Seller",
    condition := "new", timestamp := 3, url := "https://www.amazon.com/x" }

/-! ### Evaluation helper lemmas (string tests and concrete engine runs) -/

lemma lower_instock : strLower "In Stock" = "in stock" := by decide

lemma instock_noout : strContains "in stock" "out of stock" = false := by decide

lemma instock_nounav : strContains "in stock" "unavailable" = false := by decide

lemma instock_nolow : strContains "in stock" "low" = false := by decide

lemma instock_noonly : strContains "in stock" "only" = false := by decide

/-- The engine run on the tied pair under `lowBar` settings. -/
lemma calc_tie_eval :
    calculate_opportunity lowBar "p1" "Widget" amTie bbTie 1 = some oppTie := by
  norm_num [calculate_opportunity, calculate_risk, amTie, bbTie, amPt, bbPt,
    lowBar, oppTie, PricePoint.total_cost, roundDec, roundHalfEven,
    lower_instock, instock_noout, instock_nounav, instock_nolow, instock_noonly]

/-- The engine run on the scenario pair under default settings. -/
lemma calc_scenario_eval (now : ℕ) :
    calculate_opportunity defaultSettings "p1" "Widget" amPt bbPt now
      = some (oppScenarioAt now) := by
  norm_num [calculate_opportunity, calculate_risk, amPt, bbPt,
    defaultSettings, oppScenarioAt, PricePoint.total_cost, roundDec,
    roundHalfEven, lower_instock, instock_noout, instock_nounav,
    instock_nolow, instock_noonly]

/-- The engine run on the tied pair under default settings: the margin is
-15%, below the 5% threshold, so no opportunity is produced. -/
lemma calc_tie_default_eval (now : ℕ) :
    calculate_opportunity defaultSettings "p1" "Widget" amTie bbTie now
      = none := by
  norm_num [calculate_opportunity, amTie, bbTie, amPt, bbPt,
    defaultSettings, PricePoint.total_cost]

lemma tie_total_cost : amTie.total_cost = bbTie.total_cost := by
  norm_num [amTie, bbTie, amPt, bbPt, PricePoint.total_cost]

/-! ### C2: tie-break direction -/

/-- C2 counterexample: on a tie (equal total costs) the engine does NOT
pick Amazon (marketplace A) as the buy side — it takes the else branch,
buying on Best Buy and selling on Amazon. -/
theorem C2_tie_buys_on_bestbuy :
    amTie.total_cost = bbTie.total_cost ∧
    calculate_opportunity lowBar "p1" "Widget" amTie bbTie 1 = some oppTie ∧
    oppTie.buy_marketplace = Marketplace.bestbuy ∧
    oppTie.sell_marketplace = Marketplace.amazon ∧
    Marketplace.bestbuy ≠ Marketplace.amazon :=
  ⟨tie_total_cost, calc_tie_eval, rfl, rfl, by decide⟩

/-- C2 amended: on a tie the engine buys on the Best Buy side and sells
on the Amazon side, and the Amazon seller fee is charged on the sale. -/
theorem calc_tie_direction (s : Settings) (pid nm : String)
    (a b : PricePoint) (now : ℕ) (opp : Opportunity)
    (htie : a.total_cost = b.total_cost)
    (h : calculate_opportunity s pid nm a b now = some opp) :
    opp.buy_marketplace = b.marketplace ∧ opp.buy_price = b.price ∧
    opp.sell_marketplace = a.marketplace ∧ opp.sell_price = a.price ∧
    opp.estimated_fees
      = roundDec 2 (a.price * (s.amazon_seller_fee_pct / 100)) := by
  simp only [calculate_opportunity, htie, lt_self_iff_false, if_false] at h
  split_ifs at h with h1 h2
  all_goals first
    | exact Option.noConfusion h
    | (rw [Option.some_inj] at h
       subst h
       exact ⟨rfl, rfl, rfl, rfl, rfl⟩)

/-- Witness for `calc_tie_direction` at the concrete tied pair. -/
theorem calc_tie_direction_witness :
    oppTie.buy_marketplace = bbTie.marketplace ∧
    oppTie.buy_price = bbTie.price ∧
    oppTie.sell_marketplace = amTie.marketplace ∧
    oppTie.sell_price = amTie.price ∧
    oppTie.estimated_fees
      = roundDec 2 (amTie.price * (lowBar.amazon_seller_fee_pct / 100)) :=
  calc_tie_direction lowBar "p1" "Widget" amTie bbTie 1 oppTie
    tie_total_cost calc_tie_eval

/-! ### C5: fetch failure handling -/

lemma url_amazon :
    detect_marketplace "https://www.amazon.com/x" = some Marketplace.amazon := by
  decide

/-- The mock substitution for a failed Amazon fetch with draw 50. -/
lemma mock50_eval :
    get_mock_price "https://www.amazon.com/x" "p1" Marketplace.amazon 50 3
      = some mock50 := by
  norm_num [get_mock_price, mock50, roundDec, roundHalfEven]

/-- C5 counterexample: an HTTP error from the scraping API does not
yield "no observation" — the service answers with a synthetic mock
observation, which the scan then records like a real one. -/
theorem C5_failure_yields_mock :
    scrape_price "https://www.amazon.com/x" "p1" FetchOutcome.httpStatusError
        50 3 = Except.ok (some mock50) ∧
    (some mock50 ≠ (none : Option PricePoint)) := by
  constructor
  · rw [scrape_price, url_amazon]
    show Except.ok
        (get_mock_price "https://www.amazon.com/x" "p1" Marketplace.amazon
          50 3) = _
    rw [mock50_eval]
  · simp

/-- C5 amended: a fetch failure (HTTP error, other exception, or a stream
with no usable result) is never fatal — the scrape call still returns
normally — but instead of producing no observation it substitutes the
synthetic mock observation. -/
theorem scrape_failure_returns_mock (url product_id : String)
    (outcome : FetchOutcome) (draw : ℚ) (now : ℕ) (mp : Marketplace)
    (hmp : detect_marketplace url = some mp)
    (hfail : ∀ p sh stck sel, outcome ≠ FetchOutcome.ok p sh stck sel) :
    scrape_price url product_id outcome draw now
      = Except.ok (get_mock_price url product_id mp draw now) := by
  rw [scrape_price, hmp]
  cases outcome with
  | ok p sh stck sel => exact absurd rfl (hfail p sh stck sel)
  | httpStatusError => rfl
  | otherError => rfl
  | noCompleteEvent => rfl

/-- Witness for `scrape_failure_returns_mock` at a concrete failed fetch. -/
theorem scrape_failure_returns_mock_witness :
    scrape_price "https://www.amazon.com/x" "p1" FetchOutcome.httpStatusError
        50 3
      = Except.ok (get_mock_price "https://www.amazon.com/x" "p1"
          Marketplace.amazon 50 3) :=
  scrape_failure_returns_mock "https://www.amazon.com/x" "p1"
    FetchOutcome.httpStatusError 50 3 Marketplace.amazon url_amazon
    (fun _ _ _ _ h => FetchOutcome.noConfusion h)

/-! ### C3: when the engine returns none -/

/-- The margin the engine computes for a pair, pulled out of
`calculate_opportunity` (same direction selection, fee rule and formula). -/
def marginOf (s : Settings) (amazon_price bestbuy_price : PricePoint) : ℚ :=
  let buy :=
    if amazon_price.total_cost < bestbuy_price.total_cost then amazon_price
    else bestbuy_price
  let sell :=
    if amazon_price.total_cost < bestbuy_price.total_cost then bestbuy_price
    else amazon_price
  let fees : ℚ :=
    if amazon_price.total_cost < bestbuy_price.total_cost then 0
    else sell.price * (s.amazon_seller_fee_pct / 100)
  (sell.price - buy.total_cost - fees) / buy.total_cost * 100

/-- C3: the engine yields no opportunity exactly when one of the two
total costs is non-positive or the computed margin is below the
configured threshold.  (The single `total_cost <= 0` guard suffices for
both sides because the buy side always has the minimal total cost.) -/
theorem calc_none_iff (s : Settings) (pid nm : String) (a b : PricePoint)
    (now : ℕ) :
    calculate_opportunity s pid nm a b now = none ↔
      a.total_cost ≤ 0 ∨ b.total_cost ≤ 0 ∨
        marginOf s a b < s.min_margin_threshold := by
  unfold calculate_opportunity marginOf
  by_cases hab : a.total_cost < b.total_cost
  · simp only [if_pos hab]
    constructor
    · intro h
      split_ifs at h with h0 hm
      · exact Or.inl h0
      · exact Or.inr (Or.inr hm)
    · intro h
      rcases h with h0 | h0 | hm
      · rw [if_pos h0]
      · rw [if_pos (le_of_lt (lt_of_lt_of_le hab h0))]
      · by_cases h0 : a.total_cost ≤ 0
        · rw [if_pos h0]
        · rw [if_neg h0, if_pos hm]
  · simp only [if_neg hab]
    constructor
    · intro h
      split_ifs at h with h0 hm
      · exact Or.inr (Or.inl h0)
      · exact Or.inr (Or.inr hm)
    · intro h
      rcases h with h0 | h0 | hm
      · rw [if_pos (le_trans (le_of_not_lt hab) h0)]
      · rw [if_pos h0]
      · by_cases h0 : b.total_cost ≤ 0
        · rw [if_pos h0]
        · rw [if_neg h0, if_pos hm]

/-! ### C4: profit, fee and margin formulas -/

/-- Spec-side definition (§4.1 step 1): the buy side is the marketplace
with the lower total cost. -/
def buySide (a b : PricePoint) : PricePoint :=
  if a.total_cost < b.total_cost then a else b

/-- Spec-side definition (§4.1 step 1): the sell side is the other
marketplace. -/
def sellSide (a b : PricePoint) : PricePoint :=
  if a.total_cost < b.total_cost then b else a

/-- Spec-side definition (§4.1 step 2): fees apply only when the sell
side is the fee-charging marketplace (the Amazon argument, which is the
sell side exactly when the Amazon total is not strictly lower);
`estimated_fees = sell_side.price * fee_pct/100`, otherwise zero. -/
def specFees (s : Settings) (a b : PricePoint) : ℚ :=
  if a.total_cost < b.total_cost then 0
  else (sellSide a b).price * (s.amazon_seller_fee_pct / 100)

/-- C4: on any valid pair (both totals positive, margin at threshold)
the engine returns an opportunity whose fee, gross, net and margin
fields equal the spec formulas up to 2-decimal rounding; at the scenario
pair (buy 48+2, sell 70, fee 15%) the fields are 10.5 / 20 / 9.5 / 19
and an opportunity is produced under the default 5% threshold. -/
theorem calc_formulas :
    (∀ (s : Settings) (pid nm : String) (a b : PricePoint) (now : ℕ),
      0 < a.total_cost → 0 < b.total_cost →
      s.min_margin_threshold ≤ marginOf s a b →
      ∃ opp, calculate_opportunity s pid nm a b now = some opp ∧
        opp.estimated_fees = roundDec 2 (specFees s a b) ∧
        opp.gross_profit
          = roundDec 2 ((sellSide a b).price - (buySide a b).total_cost) ∧
        opp.net_profit
          = roundDec 2
              ((sellSide a b).price - (buySide a b).total_cost
                - specFees s a b) ∧
        opp.margin_pct
          = roundDec 2
              (((sellSide a b).price - (buySide a b).total_cost
                  - specFees s a b) / (buySide a b).total_cost * 100)) ∧
    (calculate_opportunity defaultSettings "p1" "Widget" amPt bbPt 7
        = some (oppScenarioAt 7) ∧
      (oppScenarioAt 7).estimated_fees = 21/2 ∧
      (oppScenarioAt 7).gross_profit = 20 ∧
      (oppScenarioAt 7).net_profit = 19/2 ∧
      (oppScenarioAt 7).margin_pct = 19) := by
  constructor
  · intro s pid nm a b now ha hb hm
    unfold calculate_opportunity
    unfold marginOf at hm
    unfold buySide sellSide specFees sellSide
    by_cases hab : a.total_cost < b.total_cost
    · simp only [if_pos hab] at hm ⊢
      rw [if_neg (not_le.mpr ha), if_neg (not_lt.mpr hm)]
      exact ⟨_, rfl, rfl, rfl, rfl, rfl⟩
    · simp only [if_neg hab] at hm ⊢
      rw [if_neg (not_le.mpr hb), if_neg (not_lt.mpr hm)]
      exact ⟨_, rfl, rfl, rfl, rfl, rfl⟩
  · refine ⟨calc_scenario_eval 7, ?_, ?_, ?_, ?_⟩ <;> norm_num [oppScenarioAt]

/-- Witness for `calc_formulas` at the scenario pair. -/
theorem calc_formulas_witness :
    ∃ opp,
      calculate_opportunity defaultSettings "p1" "Widget" amPt bbPt 7
          = some opp ∧
        opp.estimated_fees = roundDec 2 (specFees defaultSettings amPt bbPt) ∧
        opp.gross_profit
          = roundDec 2
              ((sellSide amPt bbPt).price - (buySide amPt bbPt).total_cost) ∧
        opp.net_profit
          = roundDec 2
              ((sellSide amPt bbPt).price - (buySide amPt bbPt).total_cost
                - specFees defaultSettings amPt bbPt) ∧
        opp.margin_pct
          = roundDec 2
              (((sellSide amPt bbPt).price - (buySide amPt bbPt).total_cost
                  - specFees defaultSettings amPt bbPt)
                / (buySide amPt bbPt).total_cost * 100) :=
  calc_formulas.1 defaultSettings "p1" "Widget" amPt bbPt 7
    (by norm_num [amPt, PricePoint.total_cost])
    (by norm_num [bbPt, PricePoint.total_cost])
    (by norm_num [marginOf, amPt, bbPt, defaultSettings, PricePoint.total_cost])

/-! ### C8: risk scoring -/

/-- Spec-side definition (§4.2): the total additive penalty, factor by
factor in the fixed evaluation order (the two stock factors are mutually
exclusive). -/
def specRiskPenalty (buy : PricePoint) (margin_pct : ℚ) : ℚ :=
  (if strContains (strLower buy.stock) "out of stock" ||
       strContains (strLower buy.stock) "unavailable" then 3
   else if strContains (strLower buy.stock) "low" ||
       strContains (strLower buy.stock) "only" then 3/2
   else 0) +
  (if (match buy.seller with
       | none => false
       | some sl => !(strLower sl == "amazon.com")) then 1 else 0) +
  (if 50 < margin_pct then 2 else 0) +
  (if margin_pct < 10 then 1 else 0) +
  (if 0 < buy.shipping then 1/2 else 0)

/-- Spec-side definition (§4.2): the labels of all matching factors, in
the fixed evaluation order. -/
def specRiskFactors (buy : PricePoint) (margin_pct : ℚ) : List String :=
  (if strContains (strLower buy.stock) "out of stock" ||
       strContains (strLower buy.stock) "unavailable" then
     ["Buy source out of stock"]
   else if strContains (strLower buy.stock) "low" ||
       strContains (strLower buy.stock) "only" then
     ["Low stock at buy source"]
   else []) ++
  (if (match buy.seller with
       | none => false
       | some sl => !(strLower sl == "amazon.com")) then
     ["Third-party seller"] else []) ++
  (if 50 < margin_pct then ["Unusually high margin - verify prices"]
   else []) ++
  (if margin_pct < 10 then ["Thin margin - price sensitive"] else []) ++
  (if 0 < buy.shipping then ["Shipping costs reduce margin"] else [])

/-- Spec-side definition (§4.2): base 5.0 plus the penalties, clamped to
[0, 10], rounded to 1 decimal. -/
def specRiskScore (buy : PricePoint) (margin_pct : ℚ) : ℚ :=
  roundDec 1 (min 10 (max 0 (5 + specRiskPenalty buy margin_pct)))

/-- The risk score is at least the base 5.0, at most 10, and is exactly
representable with one decimal place. -/
lemma calc_risk_bounds (buy sell : PricePoint) (margin_pct : ℚ) :
    5 ≤ (calculate_risk buy sell margin_pct).1 ∧
    (calculate_risk buy sell margin_pct).1 ≤ 10 ∧
    roundDec 1 (calculate_risk buy sell margin_pct).1
      = (calculate_risk buy sell margin_pct).1 := by
  simp only [calculate_risk]
  by_cases hb1 : (strContains (strLower buy.stock) "out of stock" ||
      strContains (strLower buy.stock) "unavailable") = true <;>
  by_cases hb2 : (strContains (strLower buy.stock) "low" ||
      strContains (strLower buy.stock) "only") = true <;>
  by_cases hb3 : (match buy.seller with
      | none => false
      | some sl => !(strLower sl == "amazon.com")) = true <;>
  by_cases h4 : 50 < margin_pct <;>
  by_cases h5 : margin_pct < 10 <;>
  by_cases h6 : 0 < buy.shipping <;>
  simp only [hb1, hb2, hb3, h4, h5, h6, if_true, if_false,
    eq_self_iff_true, not_true, not_false_iff] <;>
  norm_num [roundDec, roundHalfEven]

/-- C8: the risk computation agrees with the spec's additive model
(base 5.0, fixed penalties, all matching factors recorded in evaluation
order, clamped to [0, 10]), and the returned score lies in [0, 10] and
carries exactly one decimal place. -/
theorem risk_score_spec (buy sell : PricePoint) (margin_pct : ℚ) :
    calculate_risk buy sell margin_pct
      = (specRiskScore buy margin_pct, specRiskFactors buy margin_pct) ∧
    0 ≤ (calculate_risk buy sell margin_pct).1 ∧
    (calculate_risk buy sell margin_pct).1 ≤ 10 ∧
    roundDec 1 (calculate_risk buy sell margin_pct).1
      = (calculate_risk buy sell margin_pct).1 := by
  refine ⟨?_, le_trans (by norm_num) (calc_risk_bounds buy sell margin_pct).1,
    (calc_risk_bounds buy sell margin_pct).2.1,
    (calc_risk_bounds buy sell margin_pct).2.2⟩
  simp only [calculate_risk, specRiskScore, specRiskPenalty, specRiskFactors]
  by_cases hb1 : (strContains (strLower buy.stock) "out of stock" ||
      strContains (strLower buy.stock) "unavailable") = true <;>
  by_cases hb2 : (strContains (strLower buy.stock) "low" ||
      strContains (strLower buy.stock) "only") = true <;>
  by_cases hb3 : (match buy.seller with
      | none => false
      | some sl => !(strLower sl == "amazon.com")) = true <;>
  by_cases h4 : 50 < margin_pct <;>
  by_cases h5 : margin_pct < 10 <;>
  by_cases h6 : 0 < buy.shipping <;>
  simp only [hb1, hb2, hb3, h4, h5, h6, if_true, if_false,
    eq_self_iff_true, not_true, not_false_iff] <;>
  norm_num

/-! ### C10: effective risk range of engine opportunities -/

/-- Any value equal to a risk score lies in [5, 10]. -/
lemma risk_score_between (buy sell : PricePoint) (m q : ℚ)
    (hq : q = (calculate_risk buy sell m).1) : 5 ≤ q ∧ q ≤ 10 :=
  hq ▸ ⟨(calc_risk_bounds buy sell m).1, (calc_risk_bounds buy sell m).2.1⟩

/-- Every opportunity the engine produces carries a risk score in
[5, 10]. -/
lemma calc_some_risk_bounds (s : Settings) (pid nm : String)
    (a b : PricePoint) (now : ℕ) (opp : Opportunity)
    (h : calculate_opportunity s pid nm a b now = some opp) :
    5 ≤ opp.risk_score ∧ opp.risk_score ≤ 10 := by
  simp only [calculate_opportunity] at h
  split_ifs at h
  all_goals
    rw [Option.some_inj] at h
    subst h
    exact risk_score_between _ a _ _ rfl

/-- C10: opportunities produced by the engine have risk scores in
[5.0, 10.0] (the base is 5.0 and every penalty is non-negative), so a
query with `maxRisk < 5` over engine-produced opportunities is empty. -/
theorem risk_effective_range :
    (∀ (s : Settings) (pid nm : String) (a b : PricePoint) (now : ℕ)
      (opp : Opportunity),
      calculate_opportunity s pid nm a b now = some opp →
      5 ≤ opp.risk_score ∧ opp.risk_score ≤ 10) ∧
    (∀ (s : Settings) (l : List Opportunity) (mm : Option ℚ) (r : ℚ),
      r < 5 →
      (∀ o ∈ l, ∃ (s2 : Settings) (pid nm : String) (a b : PricePoint)
        (now : ℕ), calculate_opportunity s2 pid nm a b now = some o) →
      filter_opportunities s l mm (some r) = []) := by
  constructor
  · exact fun s pid nm a b now opp h => calc_some_risk_bounds s pid nm a b now opp h
  · intro s l mm r hr hprov
    simp only [filter_opportunities]
    have hnil :
        (l.filter (fun o => decide ((mm.getD s.min_margin_threshold) ≤ o.margin_pct))).filter
            (fun o => decide (o.risk_score ≤ r)) = [] := by
      rw [List.filter_eq_nil_iff]
      intro o ho
      have hol : o ∈ l := (List.mem_filter.mp ho).1
      obtain ⟨s2, pid, nm, a, b, now, hcalc⟩ := hprov o hol
      have h5 := (calc_some_risk_bounds s2 pid nm a b now o hcalc).1
      simp only [decide_eq_true_eq, not_le]
      linarith
    rw [hnil]
    rfl

/-- Witness for `risk_effective_range`: the scenario opportunity has
risk score in [5, 10], and a query with maxRisk 4 over it is empty. -/
theorem risk_effective_range_witness :
    (5 ≤ (oppScenarioAt 7).risk_score ∧ (oppScenarioAt 7).risk_score ≤ 10) ∧
    filter_opportunities defaultSettings [oppScenarioAt 7] none (some 4)
      = [] := by
  constructor
  · exact risk_effective_range.1 defaultSettings "p1" "Widget" amPt bbPt 7
      (oppScenarioAt 7) (calc_scenario_eval 7)
  · refine risk_effective_range.2 defaultSettings [oppScenarioAt 7] none 4
      (by norm_num) ?_
    intro o ho
    rw [List.mem_singleton] at ho
    subst ho
    exact ⟨defaultSettings, "p1", "Widget", amPt, bbPt, 7,
      calc_scenario_eval 7⟩

/-! ### C1: registry reconciliation on scan -/

/-- The stored product after the first scan stamped its timestamp. -/
def prodScanned : Product :=
  { id := "p1", name := "Widget", last_scanned := some 0 }

lemma stAdded_products : stAdded.products "p1" = some prod1 := by
  simp [stAdded, add_product, initState, prod1]

lemma stAdded_opps : stAdded.opps = [] := by
  simp [stAdded, add_product, initState]

lemma stScan_opps : stScan.opps = [oppScenarioAt 0] := by
  simp only [stScan, scan_product, stAdded_products, calc_scenario_eval 0,
    prod1, stAdded_opps]
  simp [stAdded, add_product, initState]

lemma stScan_products : stScan.products "p1" = some prodScanned := by
  simp only [stScan, scan_product, stAdded_products]
  simp [prod1, prodScanned]

/-- C1 counterexample: a scan at time 1 in which both marketplaces
produce observations, but the new computation yields none (tied totals,
margin -15% below threshold): the opportunity computed in the earlier
round 0 remains in the registry, because the source removes the prior
opportunity only inside `if opportunity:`. -/
theorem C1_stale_opportunity_persists :
    calculate_opportunity defaultSettings "p1" "Widget" amTie bbTie 1
        = none ∧
    (scan_product defaultSettings stScan "p1" (some amTie) (some bbTie)
        1).opps = [oppScenarioAt 0] ∧
    stScan.opps = [oppScenarioAt 0] ∧
    (oppScenarioAt 0).product_id = "p1" ∧
    (oppScenarioAt 0).last_updated = 0 := by
  refine ⟨calc_tie_default_eval 1, ?_, stScan_opps, rfl, rfl⟩
  simp only [scan_product, stScan_products]
  have hn : calculate_opportunity defaultSettings "p1" prodScanned.name
      amTie bbTie 1 = none := calc_tie_default_eval 1
  simp only [hn]
  exact stScan_opps

/-- C1 amended: when both marketplaces produce an observation, the scan
replaces any prior opportunity for the product only if the new
computation yields an opportunity; when it yields none, the registry is
left unchanged, so a prior opportunity persists. -/
theorem scan_upsert (s : Settings) (st : AppState) (pid : String)
    (product : Product) (a b : PricePoint) (now : ℕ)
    (hp : st.products pid = some product) :
    (∀ opp, calculate_opportunity s pid product.name a b now = some opp →
      (scan_product s st pid (some a) (some b) now).opps
        = st.opps.filter (fun o => decide (o.product_id ≠ pid)) ++ [opp]) ∧
    (calculate_opportunity s pid product.name a b now = none →
      (scan_product s st pid (some a) (some b) now).opps = st.opps) := by
  constructor
  · intro opp hc
    simp only [scan_product, hp, hc]
  · intro hc
    simp only [scan_product, hp, hc]

/-- Witness for `scan_upsert`: the none case at the concrete state. -/
theorem scan_upsert_witness :
    (scan_product defaultSettings stScan "p1" (some amTie) (some bbTie)
        1).opps = stScan.opps :=
  (scan_upsert defaultSettings stScan "p1" prodScanned amTie bbTie 1
    stScan_products).2 (calc_tie_default_eval 1)

/-! ### C6: at most one opportunity per product -/

/-- Every opportunity the engine produces carries the scanned product's
identifier. -/
lemma calc_some_product_id (s : Settings) (pid nm : String)
    (a b : PricePoint) (now : ℕ) (opp : Opportunity)
    (h : calculate_opportunity s pid nm a b now = some opp) :
    opp.product_id = pid := by
  simp only [calculate_opportunity] at h
  split_ifs at h
  all_goals
    rw [Option.some_inj] at h
    subst h
    rfl

/-- C6: in every reachable store state the registry holds at most one
opportunity per product identifier. -/
theorem registry_at_most_one (s : Settings) (st : AppState)
    (h : Reachable s st) (pid : String) :
    st.opps.countP (fun o => decide (o.product_id = pid)) ≤ 1 := by
  induction h with
  | init => simp [initState]
  | add st' p _ ih => simpa [add_product] using ih
  | del st' pid0 _ ih =>
    unfold delete_product
    cases hsp : st'.products pid0 with
    | none => exact ih
    | some product =>
      simp only []
      exact le_trans ((List.filter_sublist st'.opps).countP_le _) ih
  | scan st' pid0 a b now _ ih =>
    unfold scan_product
    cases hsp : st'.products pid0 with
    | none => exact ih
    | some product =>
      simp only []
      cases a with
      | none => exact ih
      | some ap =>
        cases b with
        | none => exact ih
        | some bp =>
          dsimp only
          cases hc : calculate_opportunity s pid0 product.name ap bp now with
          | none => exact ih
          | some opp =>
            dsimp only
            rw [List.countP_append]
            by_cases hpid : pid = pid0
            · subst hpid
              have h1 : (st'.opps.filter
                  (fun o => decide (o.product_id ≠ pid))).countP
                    (fun o => decide (o.product_id = pid)) = 0 := by
                rw [List.countP_eq_zero]
                intro o ho
                have hne := (List.mem_filter.mp ho).2
                simp only [decide_eq_true_eq] at hne ⊢
                exact hne
              have h2 : List.countP (fun o => decide (o.product_id = pid))
                  [opp] ≤ 1 := by
                simp only [List.countP_cons, List.countP_nil]
                split_ifs <;> omega
              omega
            · have h1 : (st'.opps.filter
                  (fun o => decide (o.product_id ≠ pid0))).countP
                    (fun o => decide (o.product_id = pid)) ≤ 1 :=
                le_trans ((List.filter_sublist st'.opps).countP_le _) ih
              have hop := calc_some_product_id s pid0 product.name ap bp
                now opp hc
              have hne : opp.product_id ≠ pid := by
                rw [hop]
                intro hh
                exact hpid hh.symm
              have h2 : List.countP (fun o => decide (o.product_id = pid))
                  [opp] = 0 := by
                simp [List.countP_cons, hne]
              omega

/-- Witness for `registry_at_most_one` at a concrete reachable state. -/
theorem registry_at_most_one_witness :
    stScan.opps.countP (fun o => decide (o.product_id = "p1")) ≤ 1 :=
  registry_at_most_one defaultSettings stScan
    (Reachable.scan stAdded "p1" (some amPt) (some bbPt) 0
      (Reachable.add initState prod1 Reachable.init)) "p1"

/-! ### C7: bounded FIFO price history -/

/-- The history a completed scan stores for the scanned product: the old
history plus the fresh observations, truncated to the most recent 100. -/
lemma scan_prices_at (s : Settings) (st : AppState) (pid : String)
    (product : Product) (a b : Option PricePoint) (now : ℕ)
    (hp : st.products pid = some product) :
    (scan_product s st pid a b now).prices pid
      = (if 100 < (st.prices pid ++ obsList a b).length
         then (st.prices pid ++ obsList a b).drop
            ((st.prices pid ++ obsList a b).length - 100)
         else st.prices pid ++ obsList a b) := by
  simp only [scan_product, hp]
  exact if_pos trivial

/-- C7: in every reachable store state each product's history has at
most 100 entries, and a completed scan stores a suffix (the most recent
entries) of the old history plus the fresh observations, of length
min(total, 100) — oldest evicted first. -/
theorem history_bounded (s : Settings) :
    (∀ st : AppState, Reachable s st →
      ∀ pid : String, (st.prices pid).length ≤ 100) ∧
    (∀ (st : AppState) (pid : String) (product : Product)
      (a b : Option PricePoint) (now : ℕ),
      st.products pid = some product →
      ((scan_product s st pid a b now).prices pid)
          <:+ (st.prices pid ++ obsList a b) ∧
      ((scan_product s st pid a b now).prices pid).length
          = min (st.prices pid ++ obsList a b).length 100) := by
  constructor
  · intro st h
    induction h with
    | init => intro pid; simp [initState]
    | add st' p _ ih =>
      intro pid
      simp only [add_product]
      by_cases hq : pid = p.id
      · simp [hq]
      · simpa [hq] using ih pid
    | del st' pid0 _ ih =>
      intro pid
      unfold delete_product
      cases hsp : st'.products pid0 with
      | none => exact ih pid
      | some product =>
        simp only []
        by_cases hq : pid = pid0
        · simp [hq]
        · simpa [hq] using ih pid
    | scan st' pid0 a b now _ ih =>
      intro pid
      unfold scan_product
      cases hsp : st'.products pid0 with
      | none => exact ih pid
      | some product =>
        simp only []
        by_cases hq : pid = pid0
        · subst hq
          rw [if_pos rfl]
          split_ifs with hlen
          · simp only [List.length_drop]
            omega
          · omega
        · simpa [hq] using ih pid
  · intro st pid product a b now hp
    rw [scan_prices_at s st pid product a b now hp]
    split_ifs with hlen
    · refine ⟨List.drop_suffix _ _, ?_⟩
      simp only [List.length_drop]
      omega
    · exact ⟨List.suffix_refl _, by omega⟩

/-- Witness for `history_bounded` at a concrete reachable state and a
concrete further scan. -/
theorem history_bounded_witness :
    (stScan.prices "p1").length ≤ 100 ∧
    ((scan_product defaultSettings stScan "p1" (some amTie) (some bbTie)
          1).prices "p1")
        <:+ (stScan.prices "p1" ++ obsList (some amTie) (some bbTie)) ∧
    ((scan_product defaultSettings stScan "p1" (some amTie) (some bbTie)
          1).prices "p1").length
        = min (stScan.prices "p1" ++ obsList (some amTie) (some bbTie)).length
            100 :=
  ⟨(history_bounded defaultSettings).1 stScan
      (Reachable.scan stAdded "p1" (some amPt) (some bbPt) 0
        (Reachable.add initState prod1 Reachable.init)) "p1",
    (history_bounded defaultSettings).2 stScan "p1" prodScanned
      (some amTie) (some bbTie) 1 stScan_products⟩

/-! ### C9: query filtering and ordering -/

/-- The ordering the registry query actually produces: margin strictly
descending, ties in registry order, which is oldest last-update first. -/
def marginTimeOrder (a b : Opportunity) : Prop :=
  b.margin_pct < a.margin_pct ∨
    (a.margin_pct = b.margin_pct ∧ a.last_updated ≤ b.last_updated)

/-- The query's selection predicate: margin at least the effective
minimum (explicit or configured default) and, when given, risk at most
the maximum. -/
def queryPred (s : Settings) (mm mr : Option ℚ) (o : Opportunity) : Bool :=
  decide ((mm.getD s.min_margin_threshold) ≤ o.margin_pct) &&
    (match mr with
     | none => true
     | some r => decide (o.risk_score ≤ r))

lemma insDesc_perm (x : Opportunity) (l : List Opportunity) :
    (insDesc x l).Perm (x :: l) := by
  induction l with
  | nil => exact List.Perm.refl _
  | cons y ys ih =>
    unfold insDesc
    split_ifs with h
    · exact List.Perm.refl _
    · exact (ih.cons y).trans (List.Perm.swap x y ys)

lemma sortByMarginDesc_perm (l : List Opportunity) :
    (sortByMarginDesc l).Perm l := by
  induction l with
  | nil => exact List.Perm.refl _
  | cons x xs ih =>
    exact (insDesc_perm x (sortByMarginDesc xs)).trans (ih.cons x)

lemma mem_insDesc (z x : Opportunity) (l : List Opportunity) :
    z ∈ insDesc x l ↔ z = x ∨ z ∈ l := by
  rw [(insDesc_perm x l).mem_iff, List.mem_cons]

lemma insDesc_pairwise (x : Opportunity) (l : List Opportunity)
    (hl : l.Pairwise marginTimeOrder)
    (hx : ∀ y ∈ l, x.last_updated ≤ y.last_updated) :
    (insDesc x l).Pairwise marginTimeOrder := by
  induction l with
  | nil => simp [insDesc]
  | cons y ys ih =>
    rw [List.pairwise_cons] at hl
    unfold insDesc
    split_ifs with h
    · rw [List.pairwise_cons]
      refine ⟨?_, List.pairwise_cons.mpr ⟨hl.1, hl.2⟩⟩
      intro z hz
      rw [List.mem_cons] at hz
      rcases hz with rfl | hz
      · rcases lt_or_eq_of_le h with hlt | heq
        · exact Or.inl hlt
        · exact Or.inr ⟨heq.symm, hx z (List.mem_cons_self z ys)⟩
      · have hyz := hl.1 z hz
        have hz_le : z.margin_pct ≤ x.margin_pct := by
          rcases hyz with hlt | ⟨heq, _⟩
          · exact le_of_lt (lt_of_lt_of_le hlt h)
          · exact heq ▸ h
        rcases lt_or_eq_of_le hz_le with hlt | heq2
        · exact Or.inl hlt
        · exact Or.inr ⟨heq2.symm, hx z (List.mem_cons_of_mem y hz)⟩
    · rw [List.pairwise_cons]
      constructor
      · intro z hz
        rw [mem_insDesc] at hz
        rcases hz with rfl | hz
        · exact Or.inl (not_le.mp h)
        · exact hl.1 z hz
      · exact ih hl.2 (fun y2 hy2 => hx y2 (List.mem_cons_of_mem y hy2))

lemma sortByMarginDesc_pairwise (l : List Opportunity)
    (h : l.Pairwise (fun a b => a.last_updated ≤ b.last_updated)) :
    (sortByMarginDesc l).Pairwise marginTimeOrder := by
  induction l with
  | nil => simp [sortByMarginDesc]
  | cons x xs ih =>
    rw [List.pairwise_cons] at h
    show (insDesc x (sortByMarginDesc xs)).Pairwise marginTimeOrder
    refine insDesc_pairwise x (sortByMarginDesc xs) (ih h.2) ?_
    intro y hy
    exact h.1 y ((sortByMarginDesc_perm xs).mem_iff.mp hy)

/-- C9 amended: the query returns exactly the opportunities passing the
margin filter (defaulting to the configured minimum) and, when given,
the risk filter, sorted by margin descending; when the registry list is
ordered by last update (as `opportunities_db` is, since an upsert
removes and re-appends), ties are broken by last-updated recency with
the OLDEST update first (Python's sort is stable, and an equal-margin
pair keeps its registry order). -/
theorem query_filter_sort (s : Settings) (l : List Opportunity)
    (mm mr : Option ℚ)
    (hmono : l.Pairwise (fun a b => a.last_updated ≤ b.last_updated)) :
    (filter_opportunities s l mm mr).Perm (l.filter (queryPred s mm mr)) ∧
    (filter_opportunities s l mm mr).Pairwise marginTimeOrder := by
  constructor
  · simp only [filter_opportunities]
    cases mr with
    | none =>
      refine (sortByMarginDesc_perm _).trans ?_
      have hpred : (queryPred s mm none)
          = fun o => decide ((mm.getD s.min_margin_threshold)
              ≤ o.margin_pct) := by
        funext o
        simp [queryPred]
      rw [hpred]
    | some r =>
      refine (sortByMarginDesc_perm _).trans ?_
      dsimp only
      rw [List.filter_filter]
      have hpred : (fun o => decide (o.risk_score ≤ r) &&
          decide ((mm.getD s.min_margin_threshold) ≤ o.margin_pct))
          = queryPred s mm (some r) := by
        funext o
        simp [queryPred, Bool.and_comm]
      rw [hpred]
  · simp only [filter_opportunities]
    apply sortByMarginDesc_pairwise
    cases mr with
    | none => exact hmono.sublist (List.filter_sublist l)
    | some r =>
      exact hmono.sublist
        ((List.filter_sublist _).trans (List.filter_sublist l))

/-- Two equal-margin opportunities; `o1x` was updated at time 0, `o2x`
at time 1, so in the registry list `o1x` comes first. -/
def o1x : Opportunity :=
  { product_id := "q1", product_name := "A",
    buy_marketplace := Marketplace.bestbuy, buy_price := 40,
    buy_shipping := 0, buy_url := "u1",
    sell_marketplace := Marketplace.amazon, sell_price := 50,
    sell_url := "u2", gross_profit := 10, estimated_fees := 0,
    net_profit := 10, margin_pct := 10, risk_score := 6,
    risk_factors := [], stock_status := "In Stock", last_updated := 0 }

/-- The more recently updated equal-margin opportunity. -/
def o2x : Opportunity := { o1x with product_id := "q2", last_updated := 1 }

/-- C9 counterexample: with two equal-margin opportunities the query
keeps registry order — oldest update FIRST — not "most recent first" as
claimed: the result is [o1x, o2x], not [o2x, o1x]. -/
theorem C9_ties_oldest_first :
    o1x.margin_pct = o2x.margin_pct ∧
    o1x.last_updated < o2x.last_updated ∧
    filter_opportunities defaultSettings [o1x, o2x] none none
      = [o1x, o2x] ∧
    ([o1x, o2x] : List Opportunity) ≠ [o2x, o1x] := by
  refine ⟨rfl, by norm_num [o1x, o2x], ?_, ?_⟩
  · simp only [filter_opportunities, sortByMarginDesc]
    norm_num [o1x, o2x, defaultSettings, List.filter, insDesc]
  · intro hcontra
    have h1 := List.head_eq_of_cons_eq hcontra
    have h2 : o1x.product_id = o2x.product_id := by rw [h1]
    simp [o1x, o2x] at h2

/-- Witness for `query_filter_sort` at a concrete registry list. -/
theorem query_filter_sort_witness :
    (filter_opportunities defaultSettings [o1x, o2x] none none).Perm
        ([o1x, o2x].filter (queryPred defaultSettings none none)) ∧
    (filter_opportunities defaultSettings [o1x, o2x] none
        none).Pairwise marginTimeOrder :=
  query_filter_sort defaultSettings [o1x, o2x] none none
    (by norm_num [List.pairwise_cons, o1x, o2x])
